import Mathlib

/-!
gdstk: polygon snapshots, repetition records and V4Item accessors

A shallow embedding of `include/gdstk/polygon.hpp`, `include/gdstk/v4item.hpp`,
`src/v4item.cpp` and `python/v4item_object.cpp`.

Conventions of the embedding.

* A `double` is an element of a type `F`.  The copying code never computes with the
  values it moves, so for it `F` is arbitrary (only `0` is needed, the value
  `std::vector::resize` fills new slots with).  Equality is equality of values.
* `Array<T>` and `std::vector<T>` are lists; `count` / `size()` is the length.
* `uint64_t` counts are natural numbers.  The products `count * 2` cannot wrap: an
  `Array<Vec2>` with `count` elements occupies `16 * count` bytes of a 64-bit
  address space.
* `Tag` is a 64-bit integer key, a natural number here.
* The `properties` and `owner` members of `Polygon` are not read or written by any
  function embedded here and are left out of the record.
-/

namespace gdstk

/-! ## Data model -/

/-- The type `Vec2` of `vec.hpp`: a pair of doubles. -/
structure Vec2 (F : Type) where
  x : F
  y : F
deriving DecidableEq, Repr

/-- The enumeration `RepetitionType`. -/
inductive RepetitionType where
  | None
  | Rectangular
  | Regular
  | Explicit
  | ExplicitX
  | ExplicitY
deriving DecidableEq, Repr

/-- The type `Repetition`: a type tag and a union whose live member is fixed by the tag. -/
inductive Repetition (F : Type) where
  | None
  | Rectangular (columns rows : Nat) (spacing : Vec2 F)
  | Regular (columns rows : Nat) (v1 v2 : Vec2 F)
  | Explicit (offsets : List (Vec2 F))
  | ExplicitX (coords : List F)
  | ExplicitY (coords : List F)
deriving DecidableEq, Repr

/-- The member `Repetition::type`. -/
def Repetition.type {F : Type} : Repetition F → RepetitionType
  | .None => .None
  | .Rectangular _ _ _ => .Rectangular
  | .Regular _ _ _ _ => .Regular
  | .Explicit _ => .Explicit
  | .ExplicitX _ => .ExplicitX
  | .ExplicitY _ => .ExplicitY

/-- The type `Tag` of `utils.hpp`. -/
abbrev Tag := Nat

/-- The struct `Polygon` (members `tag`, `point_array`, `repetition`). -/
structure Polygon (F : Type) where
  tag : Tag
  point_array : List (Vec2 F)
  repetition : Repetition F
deriving DecidableEq, Repr

/-- The method `std::vector<double>::resize(n)`: keep the first `n` elements, fill up with
zeros. -/
def resize {F : Type} [Zero F] (v : List F) (n : Nat) : List F :=
  v.take n ++ List.replicate (n - v.length) 0

/-- The loop `for (i = 0; i < count; i++) { out[i*2] = items[i].x; out[i*2+1] = items[i].y; }`
shared by `OffsettedPolys::copy` and `RepetitionInfo::operator=`. -/
def store_pairs {F : Type} (items : List (Vec2 F)) (count : Nat) (out : List F) : List F :=
  (List.range count).foldl
    (fun acc i =>
      match items[i]? with
      | some v => (acc.set (i * 2) v.x).set (i * 2 + 1) v.y
      | none => acc)
    out

/-- The loop `for (i = 0; i < count; i++) { out[i] = items[i]; }` of
`RepetitionInfo::operator=`. -/
def store_each {F : Type} (items : List F) (count : Nat) (out : List F) : List F :=
  (List.range count).foldl
    (fun acc i =>
      match items[i]? with
      | some c => acc.set i c
      | none => acc)
    out

/-- The interleaved coordinate sequence `x_0, y_0, x_1, y_1, ...` of a point sequence. -/
def flatten_pairs {F : Type} : List (Vec2 F) → List F
  | [] => []
  | v :: vs => v.x :: v.y :: flatten_pairs vs

/-! ## `OffsetPolyTree::OffsettedPolys` -/

/-- The struct `OffsetPolyTree::OffsettedPolys`. -/
structure OffsettedPolys (F : Type) where
  tag : Nat
  points : List F
  offsets : List F
deriving DecidableEq, Repr

/-- The method `OffsettedPolys::copy(Polygon *polygon)`.  The polygon is passed by pointer, so
the state after the call is returned next to the snapshot.  `get_offsets r a` stands for
`r.get_offsets(a)`, defined in `repetition.cpp`: it returns the array `a` after the call. -/
def OffsettedPolys.copy {F : Type} [Zero F]
    (get_offsets : Repetition F → List (Vec2 F) → List (Vec2 F))
    (self : OffsettedPolys F) (polygon : Polygon F) : OffsettedPolys F × Polygon F :=
  let tag := polygon.tag
  let points := resize self.points (polygon.point_array.length * 2)
  let points := store_pairs polygon.point_array polygon.point_array.length points
  let offsets : List F := []
  let offsets :=
    if polygon.repetition.type ≠ RepetitionType.None then
      let g_offsets := get_offsets polygon.repetition []
      let offsets := resize offsets (g_offsets.length * 2)
      store_pairs g_offsets g_offsets.length offsets
    else offsets
  ({ tag := tag, points := points, offsets := offsets }, polygon)

/-! ## `RepetitionInfo` -/

/-- The struct `RepetitionInfo`.  The anonymous union overlays `spacing[2]` on `v1[2]`: the
record keeps `v1` and `v2`, and `spacing` reads `v1`. -/
structure RepetitionInfo (F : Type) where
  type : RepetitionType
  columns : Nat
  rows : Nat
  v1 : F × F
  v2 : F × F
  offsets : List F
  coords : List F
deriving DecidableEq, Repr

/-- The union member `spacing` of `RepetitionInfo`. -/
def RepetitionInfo.spacing {F : Type} (info : RepetitionInfo F) : F × F := info.v1

/-- The operator `RepetitionInfo::operator=(const Repetition &r)`. -/
def RepetitionInfo.assign {F : Type} [Zero F] (self : RepetitionInfo F) (r : Repetition F) :
    RepetitionInfo F :=
  let self := { self with type := r.type }
  match r with
  | .Rectangular columns rows spacing =>
      { self with columns := columns, rows := rows, v1 := (spacing.x, spacing.y) }
  | .Regular columns rows v1 v2 =>
      { self with columns := columns, rows := rows, v1 := (v1.x, v1.y), v2 := (v2.x, v2.y) }
  | .Explicit offsets =>
      { self with
        offsets := store_pairs offsets offsets.length (resize self.offsets (offsets.length * 2)) }
  | .ExplicitX coords =>
      { self with coords := store_each coords coords.length (resize self.coords coords.length) }
  | .ExplicitY coords =>
      { self with coords := store_each coords coords.length (resize self.coords coords.length) }
  | .None => self

/-- A default-constructed `RepetitionInfo`: the two vectors are empty and the scalar members
hold whatever their storage held. -/
def RepetitionInfo.fresh {F : Type} (type : RepetitionType) (columns rows : Nat)
    (v1 v2 : F × F) : RepetitionInfo F :=
  { type := type, columns := columns, rows := rows, v1 := v1, v2 := v2,
    offsets := [], coords := [] }

/-! ## `V4Item` and its Python accessors -/

/-- The struct `V4Item`.  `text` is a C string or `NULL`, `owner` the host-binding slot. -/
structure V4Item (F : Type) where
  tag : Tag
  text : Option String
  arr0 : List F
  arr1 : List F
  layer_names : List String
  layer_numbers : List Int
  owner : Option Nat
deriving DecidableEq, Repr

/-- The call `PyArray_SimpleNew(1, dims, NPY_DOUBLE)`: a new array of `n` doubles, or `NULL`
when the allocation fails (`ok = false`). -/
def PyArray_SimpleNew {F : Type} [Zero F] (ok : Bool) (n : Nat) : Option (List F) :=
  if ok then some (List.replicate n 0) else none

/-- The call `memcpy(dst, src, sizeof(double) * n)`. -/
def memcpy {F : Type} (dst src : List F) (n : Nat) : List F :=
  src.take n ++ dst.drop n

/-- The function `v4item_object_get_arr0`; `none` is the `NULL` return with `MemoryError`. -/
def v4item_object_get_arr0 {F : Type} [Zero F] (ok : Bool) (self : V4Item F) :
    Option (List F) :=
  let arr := self.arr0
  match PyArray_SimpleNew ok arr.length with
  | none => none
  | some data => some (memcpy data arr arr.length)

/-- The function `v4item_object_get_arr1`; `none` is the `NULL` return with `MemoryError`. -/
def v4item_object_get_arr1 {F : Type} [Zero F] (ok : Bool) (self : V4Item F) :
    Option (List F) :=
  let arr := self.arr0
  match PyArray_SimpleNew ok arr.length with
  | none => none
  | some data => some (memcpy data arr arr.length)

/-- The getter functions named in the table `v4item_object_getset`. -/
inductive V4ItemGetter where
  | v4item_object_get_text
  | v4item_object_get_arr0
  | v4item_object_get_arr1
  | v4item_object_get_layer
  | v4item_object_get_layer_names
  | v4item_object_get_layer_numbers
  | v4item_object_get_texttype
deriving DecidableEq, Repr

/-- The table `v4item_object_getset`: attribute name and getter of each entry, in order. -/
def v4item_object_getset : List (String × V4ItemGetter) :=
  [ ("text", .v4item_object_get_text),
    ("arr0", .v4item_object_get_arr0),
    ("arr1", .v4item_object_get_arr1),
    ("layer", .v4item_object_get_layer),
    ("layer_names", .v4item_object_get_layer_names),
    ("layer_numbers", .v4item_object_get_layer_numbers),
    ("texttype", .v4item_object_get_texttype) ]

/-- Reading the attribute `name` of a `V4Item` object when the table entry of that name is one
of the two array getters: the getter found in `v4item_object_getset` is run on the item. -/
def v4item_getattr_array {F : Type} [Zero F] (ok : Bool) (self : V4Item F) (name : String) :
    Option (List F) :=
  match v4item_object_getset.lookup name with
  | some .v4item_object_get_arr0 => v4item_object_get_arr0 ok self
  | some .v4item_object_get_arr1 => v4item_object_get_arr1 ok self
  | _ => none

/-- The result of `allocate_clear(sizeof(V4Item))`: storage of all zero bytes, that is tag 0,
`text` and `owner` `NULL`, and the arrays and vectors without elements. -/
def V4Item.zeroed {F : Type} : V4Item F :=
  { tag := 0, text := none, arr0 := [], arr1 := [], layer_names := [], layer_numbers := [],
    owner := none }

/-- The method `V4Item::copy_from(const V4Item& v4item)` of `v4item.cpp`.  `copy_string s`
stands for `copy_string(s, NULL)` of `utils.hpp`, whose body is not among the sources: the
newly allocated string it returns. -/
def V4Item.copy_from {F : Type} (copy_string : Option String → Option String)
    (self : V4Item F) (v4item : V4Item F) : V4Item F :=
  let self := { self with tag := v4item.tag }
  { self with text := copy_string v4item.text }

/-- The function `v4item_object_copy`: the `V4Item` of the returned object.  `result` is the
address of the new Python object, stored in the owner slot. -/
def v4item_object_copy {F : Type} (copy_string : Option String → Option String)
    (result : Nat) (self : V4Item F) : V4Item F :=
  let v4item : V4Item F := V4Item.zeroed
  let v4item := v4item.copy_from copy_string self
  { v4item with owner := some result }

/-- The function `v4item_object_deepcopy`, which calls `v4item_object_copy(self, NULL)`. -/
def v4item_object_deepcopy {F : Type} (copy_string : Option String → Option String)
    (result : Nat) (self : V4Item F) : V4Item F :=
  v4item_object_copy copy_string result self

/-- A `V4Item` with every data field set: tag 5, text `"a"`, `arr0 = [1]`, `arr1 = [2, 3]`,
one layer name and one layer number, owned by the Python object at address 1. -/
def v4item_sample : V4Item ℚ :=
  { tag := 5, text := some "a", arr0 := [1], arr1 := [2, 3], layer_names := ["m"],
    layer_numbers := [7], owner := some 1 }

/-! ## Operations defined in `repetition.cpp` and `polygon.cpp`

These two files are not among the sources.  The operations below are modelled from the
specification.  They compute with coordinates, so `F` is a field here (a linearly ordered
field where absolute values are taken): exact arithmetic in place of `double`. -/

/-- Modelled from the spec: `Repetition::get_offsets`, whose body (`repetition.cpp`) is missing.
Section 4.1: the ordered sequence of offsets, appended to `result`; for the grid variants the
outer loop runs over the second axis and the inner loop over the first, with
`offset(i,j) = (i·spacing.x, j·spacing.y)` for `Rectangular` and `i·v1 + j·v2` for `Regular`;
`Explicit` is returned verbatim; `ExplicitX` / `ExplicitY` give `(coord, 0)` / `(0, coord)`;
`None` gives nothing. -/
def Repetition.get_offsets {F : Type} [Field F] (r : Repetition F) (result : List (Vec2 F)) :
    List (Vec2 F) :=
  result ++
    match r with
    | .None => []
    | .Rectangular columns rows spacing =>
        (List.range rows).flatMap fun (j : Nat) =>
          (List.range columns).map fun (i : Nat) =>
            ⟨(i : F) * spacing.x, (j : F) * spacing.y⟩
    | .Regular columns rows v1 v2 =>
        (List.range rows).flatMap fun (j : Nat) =>
          (List.range columns).map fun (i : Nat) =>
            ⟨(i : F) * v1.x + (j : F) * v2.x, (i : F) * v1.y + (j : F) * v2.y⟩
    | .Explicit offsets => offsets
    | .ExplicitX coords => coords.map fun c => ⟨c, 0⟩
    | .ExplicitY coords => coords.map fun c => ⟨0, c⟩

/-- Modelled from the spec: the repetition count (`Repetition::get_count`, body missing), the
number `N` of offsets the repetition expands to (section 4.1). -/
def Repetition.get_count {F : Type} [Field F] (r : Repetition F) : Nat :=
  (r.get_offsets []).length

/-- Modelled from the spec: `Polygon::translate`, body missing (section 4.4). -/
def Polygon.translate {F : Type} [Field F] (self : Polygon F) (v : Vec2 F) : Polygon F :=
  { self with point_array := self.point_array.map fun p => ⟨p.x + v.x, p.y + v.y⟩ }

/-- Modelled from the spec: `Polygon::scale`, body missing (section 4.4): anisotropic scaling
about a center. -/
def Polygon.scale {F : Type} [Field F] (self : Polygon F) (scale center : Vec2 F) : Polygon F :=
  { self with
    point_array := self.point_array.map fun p =>
      ⟨(p.x - center.x) * scale.x + center.x, (p.y - center.y) * scale.y + center.y⟩ }

/-- Modelled from the spec: `Polygon::mirror`, body missing (section 4.4): reflection across the
line through `p0` and `p1`; a point goes to twice its orthogonal projection on the line minus
itself. -/
def Polygon.mirror {F : Type} [Field F] (self : Polygon F) (p0 p1 : Vec2 F) : Polygon F :=
  let vx := p1.x - p0.x
  let vy := p1.y - p0.y
  { self with
    point_array := self.point_array.map fun p =>
      let t := ((p.x - p0.x) * vx + (p.y - p0.y) * vy) / (vx * vx + vy * vy)
      ⟨2 * (p0.x + t * vx) - p.x, 2 * (p0.y + t * vy) - p.y⟩ }

/-- Modelled from the spec: `Polygon::rotate`, body missing (section 4.4): rotation about a
center.  `cos` and `sin` are the functions of `math.h`. -/
def Polygon.rotate {F : Type} [Field F] (cos sin : F → F) (self : Polygon F) (angle : F)
    (center : Vec2 F) : Polygon F :=
  { self with
    point_array := self.point_array.map fun p =>
      ⟨(p.x - center.x) * cos angle - (p.y - center.y) * sin angle + center.x,
       (p.x - center.x) * sin angle + (p.y - center.y) * cos angle + center.y⟩ }

/-- Modelled from the spec: `Polygon::transform`, body missing.  Section 4.4: in fixed order,
(1) scale about the coordinate origin, (2) reflect across the x-axis if requested, (3) rotate
about the coordinate origin, (4) translate by `origin`. -/
def Polygon.transform {F : Type} [Field F] (cos sin : F → F) (self : Polygon F)
    (magnification : F) (x_reflection : Bool) (rotation : F) (origin : Vec2 F) : Polygon F :=
  { self with
    point_array := self.point_array.map fun p =>
      let q : Vec2 F := ⟨p.x * magnification, p.y * magnification⟩
      let q : Vec2 F := if x_reflection then ⟨q.x, -q.y⟩ else q
      let q : Vec2 F :=
        ⟨q.x * cos rotation - q.y * sin rotation, q.x * sin rotation + q.y * cos rotation⟩
      ⟨q.x + origin.x, q.y + origin.y⟩ }

/-- Modelled from the spec: `Polygon::apply_repetition`, body missing.  Section 4.1: appends `N`
copies of the polygon to `result`, one per expanded offset, with the vertices translated by the
offset, the tag duplicated and the repetition of the copy cleared to `None`; then clears the
repetition of the source.  A `None` repetition appends nothing.  The source after the call is
returned next to `result`. -/
def Polygon.apply_repetition {F : Type} [Field F] (self : Polygon F)
    (result : List (Polygon F)) : Polygon F × List (Polygon F) :=
  let offsets := self.repetition.get_offsets []
  let copies := offsets.map fun o =>
    ({ self with repetition := Repetition.None } : Polygon F).translate o
  ({ self with repetition := Repetition.None }, result ++ copies)

/-- Modelled from the spec: the shoelace sum of `Polygon::signed_area` (body missing), the sum
`Σ (x_i · y_{i+1} − x_{i+1} · y_i)` over the consecutive pairs of a point list. -/
def shoelace {F : Type} [Field F] : List (Vec2 F) → F
  | a :: b :: rest => (a.x * b.y - b.x * a.y) + shoelace (b :: rest)
  | _ => 0

/-- Modelled from the spec: `Polygon::signed_area`, body missing.  Section 4.2: one instance's
signed area by the shoelace formula over the closed vertex loop, repetition left out, positive
for counter-clockwise order. -/
def Polygon.signed_area {F : Type} [Field F] (self : Polygon F) : F :=
  match self.point_array with
  | [] => 0
  | v :: vs => shoelace (v :: vs ++ [v]) / 2

/-- Modelled from the spec: `Polygon::area`, body missing.  Section 4.2:
`area = |signed_area| × max(1, repetition count)`. -/
def Polygon.area {F : Type} [LinearOrderedField F] (self : Polygon F) : F :=
  |self.signed_area| * ((max 1 self.repetition.get_count : Nat) : F)

/-- Modelled from the spec: `Polygon::fracture`, body missing.  Section 4.6 and the comment on
the declaration: nothing is done if `max_points < 5`; otherwise the pieces of the recursive
bisection are appended to `result`.  The bisection itself, which the specification leaves open,
is the parameter `bisect`. -/
def Polygon.fracture {F : Type} [Field F]
    (bisect : Nat → F → Polygon F → List (Polygon F)) (self : Polygon F)
    (max_points : Nat) (precision : F) (result : List (Polygon F)) : List (Polygon F) :=
  if max_points < 5 then result else result ++ bisect max_points precision self

/-- The unit square `(0,0)-(1,0)-(1,1)-(0,1)` of section 8, with tag 0 and a given repetition. -/
def unit_square {F : Type} [Field F] (repetition : Repetition F) : Polygon F :=
  { tag := 0, point_array := [⟨0, 0⟩, ⟨1, 0⟩, ⟨1, 1⟩, ⟨0, 1⟩], repetition := repetition }

/-! ## Lemmas on the copying loops -/

theorem resize_length {F : Type} [Zero F] (v : List F) (n : Nat) : (resize v n).length = n := by
  simp [resize]
  omega

theorem flatten_pairs_length {F : Type} (l : List (Vec2 F)) :
    (flatten_pairs l).length = 2 * l.length := by
  induction l with
  | nil => rfl
  | cons v vs ih => simp [flatten_pairs, ih]; omega

theorem flatten_pairs_append {F : Type} (l₁ l₂ : List (Vec2 F)) :
    flatten_pairs (l₁ ++ l₂) = flatten_pairs l₁ ++ flatten_pairs l₂ := by
  induction l₁ with
  | nil => rfl
  | cons v vs ih => simp [flatten_pairs, ih]

theorem flatten_pairs_getElem? {F : Type} (l : List (Vec2 F)) (i : Nat) :
    (flatten_pairs l)[2 * i]? = (l[i]?).map Vec2.x ∧
    (flatten_pairs l)[2 * i + 1]? = (l[i]?).map Vec2.y := by
  induction l generalizing i with
  | nil => simp [flatten_pairs]
  | cons v vs ih =>
    cases i with
    | zero => simp [flatten_pairs]
    | succ k =>
      have h1 : 2 * (k + 1) = (2 * k) + 1 + 1 := by ring
      have h2 : 2 * (k + 1) + 1 = (2 * k + 1) + 1 + 1 := by ring
      rw [h2, h1]
      simpa [flatten_pairs] using ih k

/-- Loop invariant of `store_pairs`: after `k` rounds the first `2k` slots hold the first `k`
points and the other slots are as before. -/
theorem store_pairs_rounds {F : Type} (items : List (Vec2 F)) (out : List F) (k : Nat)
    (hk : k ≤ items.length) (hout : items.length * 2 ≤ out.length) :
    store_pairs items k out = flatten_pairs (items.take k) ++ out.drop (k * 2) := by
  induction k with
  | zero => simp [store_pairs, flatten_pairs]
  | succ k ih =>
    have hlt : k < items.length := hk
    have ih := ih (Nat.le_of_lt hlt)
    unfold store_pairs at ih ⊢
    rw [List.range_succ, List.foldl_append, ih]
    have hget : items[k]? = some items[k] := List.getElem?_eq_getElem hlt
    have hlen : (flatten_pairs (items.take k)).length = k * 2 := by
      rw [flatten_pairs_length, List.length_take, Nat.min_eq_left (Nat.le_of_lt hlt)]
      ring
    have h1 : k * 2 < out.length := by omega
    have h2 : k * 2 + 1 < out.length := by omega
    have hdrop : out.drop (k * 2) = out[k * 2] :: out[k * 2 + 1] :: out.drop ((k + 1) * 2) := by
      rw [List.drop_eq_getElem_cons h1, List.drop_eq_getElem_cons h2]
      congr 3
      ring
    simp only [List.foldl_cons, List.foldl_nil, hget]
    rw [hdrop, List.take_succ, hget, flatten_pairs_append]
    simp [List.set_append, hlen, flatten_pairs]

theorem store_pairs_resize {F : Type} [Zero F] (items : List (Vec2 F)) (old : List F) :
    store_pairs items items.length (resize old (items.length * 2)) = flatten_pairs items := by
  rw [store_pairs_rounds items _ items.length (Nat.le_refl _) (by rw [resize_length])]
  simp [resize_length, List.drop_eq_nil_iff]

/-- Loop invariant of `store_each`. -/
theorem store_each_rounds {F : Type} (items : List F) (out : List F) (k : Nat)
    (hk : k ≤ items.length) (hout : items.length ≤ out.length) :
    store_each items k out = items.take k ++ out.drop k := by
  induction k with
  | zero => simp [store_each]
  | succ k ih =>
    have hlt : k < items.length := hk
    have ih := ih (Nat.le_of_lt hlt)
    unfold store_each at ih ⊢
    rw [List.range_succ, List.foldl_append, ih]
    have hget : items[k]? = some items[k] := List.getElem?_eq_getElem hlt
    have h1 : k < out.length := by omega
    simp only [List.foldl_cons, List.foldl_nil, hget]
    have hlen : (items.take k).length = k := by
      rw [List.length_take, Nat.min_eq_left (Nat.le_of_lt hlt)]
    rw [List.drop_eq_getElem_cons h1, List.take_succ, hget, List.set_append, hlen,
      if_neg (Nat.lt_irrefl k), Nat.sub_self]
    simp only [List.set_cons_zero, Option.toList, List.append_assoc, List.singleton_append]

theorem store_each_resize {F : Type} [Zero F] (items : List F) (old : List F) :
    store_each items items.length (resize old items.length) = items := by
  rw [store_each_rounds items _ items.length (Nat.le_refl _) (by rw [resize_length])]
  simp [resize_length, List.drop_eq_nil_iff]

/-! ## Claims on `OffsettedPolys::copy` -/

/-- C1: after `OffsettedPolys::copy(polygon)`, from any prior snapshot state, the snapshot's tag
is the polygon's tag and its points vector is the interleaved vertex sequence: it has length
`2n`, `points[2i]` is `x_i` and `points[2i+1]` is `y_i` for every `i < n` (and there is no
element past them, so no closing point), and it is empty for a polygon without vertices. -/
theorem OffsettedPolys.copy_tag_points {F : Type} [Zero F]
    (get_offsets : Repetition F → List (Vec2 F) → List (Vec2 F))
    (self : OffsettedPolys F) (polygon : Polygon F) :
    (OffsettedPolys.copy get_offsets self polygon).1.tag = polygon.tag ∧
    (OffsettedPolys.copy get_offsets self polygon).1.points.length
      = 2 * polygon.point_array.length ∧
    (∀ i : Nat,
      (OffsettedPolys.copy get_offsets self polygon).1.points[2 * i]?
        = (polygon.point_array[i]?).map Vec2.x ∧
      (OffsettedPolys.copy get_offsets self polygon).1.points[2 * i + 1]?
        = (polygon.point_array[i]?).map Vec2.y) ∧
    (∀ (tag : Tag) (rep : Repetition F),
      (OffsettedPolys.copy get_offsets self ⟨tag, [], rep⟩).1.points = []) := by
  have hpts : ∀ q : Polygon F,
      (OffsettedPolys.copy get_offsets self q).1.points = flatten_pairs q.point_array := by
    intro q
    simp only [OffsettedPolys.copy]
    exact store_pairs_resize q.point_array self.points
  refine ⟨rfl, ?_, ?_, ?_⟩
  · rw [hpts, flatten_pairs_length]
  · intro i
    rw [hpts]
    exact flatten_pairs_getElem? polygon.point_array i
  · intro tag rep
    rw [hpts]
    rfl

/-- C2: after `OffsettedPolys::copy(polygon)`, from any prior snapshot state, the offsets vector
is empty when the repetition type is `None`, and otherwise it is the interleaved sequence of
the offsets `o_0, ..., o_{k-1}` that `get_offsets` produces from an empty array: length `2k`,
`offsets[2i] = o_i.x`, `offsets[2i+1] = o_i.y`. -/
theorem OffsettedPolys.copy_offsets {F : Type} [Zero F]
    (get_offsets : Repetition F → List (Vec2 F) → List (Vec2 F))
    (self : OffsettedPolys F) (polygon : Polygon F) :
    (OffsettedPolys.copy get_offsets self polygon).1.offsets.length
      = (if polygon.repetition.type = RepetitionType.None then 0
         else 2 * (get_offsets polygon.repetition []).length) ∧
    (∀ i : Nat,
      (OffsettedPolys.copy get_offsets self polygon).1.offsets[2 * i]?
        = (if polygon.repetition.type = RepetitionType.None then none
           else ((get_offsets polygon.repetition [])[i]?).map Vec2.x) ∧
      (OffsettedPolys.copy get_offsets self polygon).1.offsets[2 * i + 1]?
        = (if polygon.repetition.type = RepetitionType.None then none
           else ((get_offsets polygon.repetition [])[i]?).map Vec2.y)) := by
  have hoff : (OffsettedPolys.copy get_offsets self polygon).1.offsets
      = (if polygon.repetition.type = RepetitionType.None then []
         else flatten_pairs (get_offsets polygon.repetition [])) := by
    simp only [OffsettedPolys.copy]
    by_cases h : polygon.repetition.type = RepetitionType.None
    · simp [h]
    · simp only [ne_eq, h, not_false_eq_true, if_true, if_false]
      exact store_pairs_resize _ _
  rw [hoff]
  by_cases h : polygon.repetition.type = RepetitionType.None
  · simp [h]
  · simp only [h, if_false]
    exact ⟨flatten_pairs_length _, flatten_pairs_getElem? _⟩

/-- C8: `OffsettedPolys::copy(polygon)` leaves the polygon (tag, vertex sequence, repetition type
and payload) as it was, for every repetition variant and every snapshot state; the snapshot it
builds does not depend on the prior snapshot state, so copying the same polygon a second time
yields an identical snapshot. -/
theorem OffsettedPolys.copy_reads_only {F : Type} [Zero F]
    (get_offsets : Repetition F → List (Vec2 F) → List (Vec2 F))
    (self : OffsettedPolys F) (polygon : Polygon F) :
    (OffsettedPolys.copy get_offsets self polygon).2 = polygon ∧
    (OffsettedPolys.copy get_offsets self polygon).2.tag = polygon.tag ∧
    (OffsettedPolys.copy get_offsets self polygon).2.point_array = polygon.point_array ∧
    (OffsettedPolys.copy get_offsets self polygon).2.repetition = polygon.repetition ∧
    (OffsettedPolys.copy get_offsets (OffsettedPolys.copy get_offsets self polygon).1
        (OffsettedPolys.copy get_offsets self polygon).2).1
      = (OffsettedPolys.copy get_offsets self polygon).1 ∧
    (∀ other : OffsettedPolys F,
      (OffsettedPolys.copy get_offsets other polygon).1
        = (OffsettedPolys.copy get_offsets self polygon).1) := by
  have hind : ∀ s t : OffsettedPolys F,
      (OffsettedPolys.copy get_offsets s polygon).1
        = (OffsettedPolys.copy get_offsets t polygon).1 := by
    intro s t
    simp only [OffsettedPolys.copy, store_pairs_resize]
  exact ⟨rfl, rfl, rfl, rfl, hind _ _, fun other => hind _ _⟩

/-! ## Claims on `RepetitionInfo::operator=` -/

/-- C3: after assigning a `Repetition` to a `RepetitionInfo` in any prior state, the info holds
the fields of the repetition's variant: its type always; columns, rows and spacing for
`Rectangular`; columns, rows, `v1` and `v2` for `Regular`; for `Explicit` with `k` offsets an
offsets vector of length `2k` with `offsets[2i] = r.offsets[i].x` and
`offsets[2i+1] = r.offsets[i].y`; for `ExplicitX` and `ExplicitY` the coords in order. -/
theorem RepetitionInfo.assign_copies_variant {F : Type} [Zero F] (info : RepetitionInfo F) :
    (∀ r : Repetition F, (info.assign r).type = r.type) ∧
    (∀ (columns rows : Nat) (spacing : Vec2 F),
      (info.assign (.Rectangular columns rows spacing)).columns = columns ∧
      (info.assign (.Rectangular columns rows spacing)).rows = rows ∧
      (info.assign (.Rectangular columns rows spacing)).spacing = (spacing.x, spacing.y)) ∧
    (∀ (columns rows : Nat) (v1 v2 : Vec2 F),
      (info.assign (.Regular columns rows v1 v2)).columns = columns ∧
      (info.assign (.Regular columns rows v1 v2)).rows = rows ∧
      (info.assign (.Regular columns rows v1 v2)).v1 = (v1.x, v1.y) ∧
      (info.assign (.Regular columns rows v1 v2)).v2 = (v2.x, v2.y)) ∧
    (∀ offsets : List (Vec2 F),
      (info.assign (.Explicit offsets)).offsets.length = 2 * offsets.length ∧
      ∀ i : Nat,
        (info.assign (.Explicit offsets)).offsets[2 * i]? = (offsets[i]?).map Vec2.x ∧
        (info.assign (.Explicit offsets)).offsets[2 * i + 1]? = (offsets[i]?).map Vec2.y) ∧
    (∀ coords : List F,
      (info.assign (.ExplicitX coords)).coords = coords ∧
      (info.assign (.ExplicitY coords)).coords = coords) := by
  refine ⟨?_, ?_, ?_, ?_, ?_⟩
  · intro r
    cases r <;> rfl
  · intro columns rows spacing
    exact ⟨rfl, rfl, rfl⟩
  · intro columns rows v1 v2
    exact ⟨rfl, rfl, rfl, rfl⟩
  · intro offsets
    have h : (info.assign (.Explicit offsets)).offsets = flatten_pairs offsets := by
      simp only [RepetitionInfo.assign]
      exact store_pairs_resize offsets info.offsets
    rw [h]
    exact ⟨flatten_pairs_length _, flatten_pairs_getElem? _⟩
  · intro coords
    constructor <;>
    · simp only [RepetitionInfo.assign]
      exact store_each_resize coords info.coords

/-- C9, as stated, fails: a freshly constructed info and an info that was assigned an `Explicit`
repetition before differ on the offsets vector after both are assigned a repetition of type
`None`; the second still holds the data of the earlier repetition. -/
theorem RepetitionInfo.assign_none_keeps_offsets :
    (((RepetitionInfo.fresh .None 0 0 (0, 0) (0, 0) : RepetitionInfo ℚ).assign
        (.Explicit [⟨1, 2⟩])).assign .None).offsets = [1, 2] ∧
    ((RepetitionInfo.fresh .None 0 0 (0, 0) (0, 0) : RepetitionInfo ℚ).assign .None).offsets
      = [] ∧
    ¬ ∀ (r : Repetition ℚ) (a b : RepetitionInfo ℚ),
        (a.assign r).type = (b.assign r).type ∧
        (a.assign r).offsets = (b.assign r).offsets ∧
        (a.assign r).coords = (b.assign r).coords := by
  refine ⟨by decide, by decide, ?_⟩
  intro h
  have h2 := (h .None (RepetitionInfo.fresh .None 0 0 (0, 0) (0, 0))
    ((RepetitionInfo.fresh .None 0 0 (0, 0) (0, 0)).assign (.Explicit [⟨1, 2⟩]))).2.1
  revert h2
  decide

/-- C9, amended: after `a = r` and `b = r` the two infos agree on the type and on the members of
the variant of `r`; every member outside that variant keeps the value it had before the
assignment.  So the offsets vectors agree when `r` is `Explicit` and are those of the prior
states otherwise, the coords vectors agree when `r` is `ExplicitX` or `ExplicitY` and are those
of the prior states otherwise; two freshly constructed infos agree on type, offsets and coords
after the assignment, with both vectors empty for `None`, `Rectangular` and `Regular`. -/
theorem RepetitionInfo.assign_determines_variant {F : Type} [Zero F]
    (r : Repetition F) (a b : RepetitionInfo F) :
    (a.assign r).type = (b.assign r).type ∧
    (a.assign r).offsets
      = (if r.type = .Explicit then (b.assign r).offsets else a.offsets) ∧
    (a.assign r).coords
      = (if r.type = .ExplicitX ∨ r.type = .ExplicitY then (b.assign r).coords
         else a.coords) ∧
    (a.assign r).columns
      = (if r.type = .Rectangular ∨ r.type = .Regular then (b.assign r).columns
         else a.columns) ∧
    (a.assign r).rows
      = (if r.type = .Rectangular ∨ r.type = .Regular then (b.assign r).rows else a.rows) ∧
    (a.assign r).v1
      = (if r.type = .Rectangular ∨ r.type = .Regular then (b.assign r).v1 else a.v1) ∧
    (a.assign r).v2 = (if r.type = .Regular then (b.assign r).v2 else a.v2) ∧
    (∀ (t t' : RepetitionType) (c c' w w' : Nat) (p p' q q' : F × F),
      ((RepetitionInfo.fresh t c w p q).assign r).type
        = ((RepetitionInfo.fresh t' c' w' p' q').assign r).type ∧
      ((RepetitionInfo.fresh t c w p q).assign r).offsets
        = ((RepetitionInfo.fresh t' c' w' p' q').assign r).offsets ∧
      ((RepetitionInfo.fresh t c w p q).assign r).coords
        = ((RepetitionInfo.fresh t' c' w' p' q').assign r).coords ∧
      ((RepetitionInfo.fresh t c w p q).assign r).offsets
        = (if r.type = .Explicit then ((RepetitionInfo.fresh t c w p q).assign r).offsets
           else []) ∧
      ((RepetitionInfo.fresh t c w p q).assign r).coords
        = (if r.type = .ExplicitX ∨ r.type = .ExplicitY
           then ((RepetitionInfo.fresh t c w p q).assign r).coords else [])) := by
  cases r <;>
    simp [RepetitionInfo.assign, RepetitionInfo.fresh, Repetition.type, store_pairs_resize,
      store_each_resize]

/-! ## Claims on the `V4Item` accessors -/

/-- The getter `v4item_object_get_arr1` reads the member `arr0`: on every item it returns what
`v4item_object_get_arr0` returns. -/
theorem v4item_object_get_arr1_eq_get_arr0 {F : Type} [Zero F] (ok : Bool) (self : V4Item F) :
    v4item_object_get_arr1 ok self = v4item_object_get_arr0 ok self := rfl

/-- C10 fails on the code: for the item with `arr0 = [1]` and `arr1 = [2, 3]` the table
`v4item_object_getset` registers `v4item_object_get_arr1` under the name `arr1`, and reading
that attribute returns the array `[1]`, which is the member `arr0` and the same array the
attribute `arr0` returns, not the member `arr1`. -/
theorem v4item_getattr_arr1_returns_arr0 :
    v4item_object_getset.lookup "arr1" = some V4ItemGetter.v4item_object_get_arr1 ∧
    v4item_getattr_array true
      ({ tag := 0, text := some "a", arr0 := [1], arr1 := [2, 3], layer_names := [],
         layer_numbers := [], owner := none } : V4Item ℚ) "arr1" = some [1] ∧
    v4item_getattr_array true
      ({ tag := 0, text := some "a", arr0 := [1], arr1 := [2, 3], layer_names := [],
         layer_numbers := [], owner := none } : V4Item ℚ) "arr0" = some [1] ∧
    v4item_getattr_array true
      ({ tag := 0, text := some "a", arr0 := [1], arr1 := [2, 3], layer_names := [],
         layer_numbers := [], owner := none } : V4Item ℚ) "arr1" ≠ some [2, 3] := by
  refine ⟨by decide, by decide, by decide, by decide⟩

/-! ## Claims on the operations modelled from the specification -/

/-- A grid enumerated row by row (outer index `j`, inner index `i`) has `rows * columns`
entries. -/
theorem grid_length {α : Type} (f : Nat → Nat → α) (columns rows : Nat) :
    ((List.range rows).flatMap fun j => (List.range columns).map fun i => f i j).length
      = rows * columns := by
  induction rows with
  | zero => simp
  | succ n ih =>
    rw [List.range_succ, List.flatMap_append, List.length_append, ih]
    simp [Nat.succ_mul]

/-- In a grid enumerated row by row the entry of column `i` and row `j` sits at position
`j * columns + i`. -/
theorem grid_getElem? {α : Type} (f : Nat → Nat → α) (columns rows i j : Nat)
    (hi : i < columns) (hj : j < rows) :
    ((List.range rows).flatMap fun j => (List.range columns).map fun i => f i j)[j * columns + i]?
      = some (f i j) := by
  induction rows with
  | zero => omega
  | succ n ih =>
    rw [List.range_succ, List.flatMap_append, List.getElem?_append, grid_length]
    by_cases hjn : j < n
    · have hlt : j * columns + i < n * columns := by
        calc j * columns + i < j * columns + columns := by omega
          _ = (j + 1) * columns := by ring
          _ ≤ n * columns := Nat.mul_le_mul_right _ hjn
      rw [if_pos hlt]
      exact ih hjn
    · have hjeq : j = n := by omega
      subst hjeq
      have hge : ¬ j * columns + i < j * columns := by omega
      rw [if_neg hge]
      simp [hi]

theorem get_offsets_rectangular {F : Type} [Field F] (columns rows : Nat) (spacing : Vec2 F) :
    (Repetition.Rectangular columns rows spacing).get_offsets []
      = (List.range rows).flatMap fun (j : Nat) =>
          (List.range columns).map fun (i : Nat) =>
            (⟨(i : F) * spacing.x, (j : F) * spacing.y⟩ : Vec2 F) := by
  simp [Repetition.get_offsets]

/-- C4: for a polygon whose repetition is `Rectangular` with `columns`, `rows` and `spacing`,
`apply_repetition` appends exactly `columns * rows` polygons after the old content of `result`,
row by row: the one at position `j * columns + i` has the source's vertices translated by
`(i·sx, j·sy)`, the source's tag and repetition `None`; the source keeps tag and vertices and
has repetition `None` afterwards.  For 2 columns, 2 rows and spacing `(1,1)` these are the 4
copies at `(0,0), (1,0), (0,1), (1,1)` in this order.  A `None` repetition appends nothing. -/
theorem Polygon.apply_repetition_rectangular {F : Type} [Field F] (self : Polygon F)
    (result : List (Polygon F)) (columns rows : Nat) (spacing : Vec2 F)
    (h : self.repetition = Repetition.Rectangular columns rows spacing) :
    (self.apply_repetition result).2.length = result.length + columns * rows ∧
    (self.apply_repetition result).2.take result.length = result ∧
    (∀ i j : Nat, i < columns → j < rows →
      (self.apply_repetition result).2[result.length + (j * columns + i)]?
        = some { tag := self.tag,
                 point_array := self.point_array.map fun p =>
                   ⟨p.x + (i : F) * spacing.x, p.y + (j : F) * spacing.y⟩,
                 repetition := Repetition.None }) ∧
    (self.apply_repetition result).1
      = { tag := self.tag, point_array := self.point_array, repetition := Repetition.None } ∧
    (∀ (tag : Tag) (pts : List (Vec2 F)) (res : List (Polygon F)),
      (Polygon.apply_repetition ⟨tag, pts, Repetition.Rectangular 2 2 ⟨1, 1⟩⟩ res)
        = (⟨tag, pts, Repetition.None⟩,
           res ++ [Polygon.translate ⟨tag, pts, Repetition.None⟩ ⟨0, 0⟩,
                   Polygon.translate ⟨tag, pts, Repetition.None⟩ ⟨1, 0⟩,
                   Polygon.translate ⟨tag, pts, Repetition.None⟩ ⟨0, 1⟩,
                   Polygon.translate ⟨tag, pts, Repetition.None⟩ ⟨1, 1⟩])) ∧
    (∀ (tag : Tag) (pts : List (Vec2 F)) (res : List (Polygon F)),
      (Polygon.apply_repetition ⟨tag, pts, Repetition.None⟩ res).2 = res) := by
  refine ⟨?_, ?_, ?_, ?_, ?_, ?_⟩
  · simp only [Polygon.apply_repetition, h, get_offsets_rectangular, List.length_append,
      List.length_map, grid_length]
    rw [Nat.mul_comm]
  · simp [Polygon.apply_repetition]
  · intro i j hi hj
    simp only [Polygon.apply_repetition, h, get_offsets_rectangular]
    rw [List.getElem?_append_right (Nat.le_add_right _ _), Nat.add_sub_cancel_left,
      List.getElem?_map,
      grid_getElem? (fun (i j : Nat) => (⟨(i : F) * spacing.x, (j : F) * spacing.y⟩ : Vec2 F))
        columns rows i j hi hj]
    rfl
  · simp [Polygon.apply_repetition]
  · intro tag pts res
    simp [Polygon.apply_repetition, Repetition.get_offsets, List.range_succ, List.flatMap]
  · intro tag pts res
    simp [Polygon.apply_repetition, Repetition.get_offsets]

/-- A polygon with a 2 by 2 rectangular repetition meets the hypotheses of C4: 4 copies are
appended and the last one, at position `1 * 2 + 1`, is the square moved by `(1, 1)`. -/
theorem Polygon.apply_repetition_rectangular_witness :
    (unit_square (Repetition.Rectangular 2 2 ⟨(1 : ℚ), 1⟩)).repetition
        = Repetition.Rectangular 2 2 ⟨1, 1⟩ ∧
    ((unit_square (Repetition.Rectangular 2 2 ⟨(1 : ℚ), 1⟩)).apply_repetition
        []).2.length = 0 + 2 * 2 ∧
    ((unit_square (Repetition.Rectangular 2 2 ⟨(1 : ℚ), 1⟩)).apply_repetition
        []).2[0 + (1 * 2 + 1)]?
      = some { tag := 0,
               point_array := (unit_square (Repetition.Rectangular 2 2 ⟨(1 : ℚ), 1⟩)).point_array.map
                 fun p => ⟨p.x + ((1 : ℕ) : ℚ) * 1, p.y + ((1 : ℕ) : ℚ) * 1⟩,
               repetition := Repetition.None } :=
  ⟨rfl,
   (Polygon.apply_repetition_rectangular
      (unit_square (Repetition.Rectangular 2 2 ⟨(1 : ℚ), 1⟩)) [] 2 2 ⟨1, 1⟩ rfl).1,
   (Polygon.apply_repetition_rectangular
      (unit_square (Repetition.Rectangular 2 2 ⟨(1 : ℚ), 1⟩)) [] 2 2 ⟨1, 1⟩ rfl).2.2.1
      1 1 (by decide) (by decide)⟩

theorem unit_square_signed_area {F : Type} [LinearOrderedField F] (repetition : Repetition F) :
    (unit_square repetition).signed_area = 1 := by
  simp only [Polygon.signed_area, unit_square, shoelace, List.cons_append, List.nil_append]
  norm_num

/-- C6: `transform(m, f, a, o)` replaces each vertex `p` by the point obtained by scaling `p`
by `m` about the coordinate origin, then negating `y` if `f`, then rotating by `a` about the
coordinate origin, then translating by `o`; vertex count, vertex order, tag and repetition are
unchanged.  It equals `scale`, `mirror` across the x-axis (if `f`), `rotate` and `translate`
applied one after another, and `transform(1, false, 0, (0,0))` leaves the polygon unchanged
(given `cos 0 = 1` and `sin 0 = 0`). -/
theorem Polygon.transform_order {F : Type} [Field F] (cos sin : F → F) (self : Polygon F)
    (m : F) (f : Bool) (a : F) (o : Vec2 F) (hcos : cos 0 = 1) (hsin : sin 0 = 0) :
    (∀ i : Nat,
      (self.transform cos sin m f a o).point_array[i]?
        = (self.point_array[i]?).map fun p =>
            (⟨(p.x * m) * cos a - (if f then -(p.y * m) else p.y * m) * sin a + o.x,
              (p.x * m) * sin a + (if f then -(p.y * m) else p.y * m) * cos a + o.y⟩ : Vec2 F)) ∧
    (self.transform cos sin m f a o).point_array.length = self.point_array.length ∧
    (self.transform cos sin m f a o).tag = self.tag ∧
    (self.transform cos sin m f a o).repetition = self.repetition ∧
    self.transform cos sin 1 false 0 ⟨0, 0⟩ = self ∧
    self.transform cos sin m f a o
      = (Polygon.rotate cos sin
          (if f then (self.scale ⟨m, m⟩ ⟨0, 0⟩).mirror ⟨0, 0⟩ ⟨1, 0⟩
           else self.scale ⟨m, m⟩ ⟨0, 0⟩)
          a ⟨0, 0⟩).translate o := by
  refine ⟨?_, ?_, rfl, rfl, ?_, ?_⟩
  · intro i
    simp only [Polygon.transform, List.getElem?_map]
    cases f <;> rfl
  · simp [Polygon.transform]
  · obtain ⟨tag, pts, rep⟩ := self
    simp only [Polygon.transform, hcos, hsin, Polygon.mk.injEq, true_and, and_true]
    conv_rhs => rw [← List.map_id pts]
    apply List.map_congr_left
    intro p _
    obtain ⟨x, y⟩ := p
    simp
  · obtain ⟨tag, pts, rep⟩ := self
    cases f
    · simp only [Bool.false_eq_true, if_false, Polygon.transform, Polygon.rotate, Polygon.scale,
        Polygon.translate, List.map_map, Polygon.mk.injEq, true_and, and_true]
      apply List.map_congr_left
      intro p _
      simp
    · simp only [if_true, Polygon.transform, Polygon.rotate, Polygon.scale,
        Polygon.translate, Polygon.mirror, List.map_map, Polygon.mk.injEq, true_and, and_true]
      apply List.map_congr_left
      intro p _
      simp only [Function.comp, Vec2.mk.injEq]
      constructor <;> ring

/-- The real cosine and sine meet the hypotheses of C6: with them `transform(1, false, 0, (0,0))`
leaves the unit square unchanged. -/
theorem Polygon.transform_order_witness :
    Real.cos 0 = 1 ∧ Real.sin 0 = 0 ∧
    (unit_square (Repetition.None : Repetition ℝ)).transform Real.cos Real.sin 1 false 0 ⟨0, 0⟩
      = unit_square Repetition.None :=
  ⟨Real.cos_zero, Real.sin_zero,
   (Polygon.transform_order Real.cos Real.sin (unit_square Repetition.None) 1 false 0 ⟨0, 0⟩
      Real.cos_zero Real.sin_zero).2.2.2.2.1⟩

/-- C7, as stated, fails: `fracture` with `max_points = 4` appends nothing, so on the unit
square, whose area is 1, the areas of the appended pieces sum to 0. -/
theorem Polygon.fracture_four_area :
    (unit_square (Repetition.None : Repetition ℚ)).area = 1 ∧
    ((((unit_square (Repetition.None : Repetition ℚ)).fracture (fun _ _ q => [q]) 4 0 []).drop
        ([] : List (Polygon ℚ)).length).map Polygon.area).sum = 0 ∧
    ¬ ∀ (bisect : Nat → ℚ → Polygon ℚ → List (Polygon ℚ)) (self : Polygon ℚ) (precision : ℚ)
        (result : List (Polygon ℚ)),
        (((self.fracture bisect 4 precision result).drop result.length).map Polygon.area).sum
          = self.area := by
  have ha : (unit_square (Repetition.None : Repetition ℚ)).area = 1 := by
    simp only [Polygon.area, unit_square_signed_area]
    simp [unit_square, Repetition.get_count, Repetition.get_offsets]
  refine ⟨ha, by simp [Polygon.fracture], ?_⟩
  intro h
  have h2 := h (fun _ _ q => [q]) (unit_square Repetition.None) 0 []
  rw [ha] at h2
  simp [Polygon.fracture] at h2

/-- C7, amended: `fracture` with `max_points = 4` and any precision is a no-op, as it is for
every `max_points < 5`: `result` is returned as it was, no piece is appended (so every appended
piece has at most 4 vertices), and the areas of the appended pieces sum to 0. -/
theorem Polygon.fracture_four_noop {F : Type} [LinearOrderedField F]
    (bisect : Nat → F → Polygon F → List (Polygon F)) (self : Polygon F) (precision : F)
    (result : List (Polygon F)) :
    self.fracture bisect 4 precision result = result ∧
    (self.fracture bisect 4 precision result).drop result.length = [] ∧
    (((self.fracture bisect 4 precision result).drop result.length).map Polygon.area).sum = 0 ∧
    ((self.fracture bisect 4 precision result).drop result.length).all
        (fun q => decide (q.point_array.length ≤ 4)) = true ∧
    (∀ max_points : Nat, self.fracture bisect max_points precision result
        = if max_points < 5 then result else result ++ bisect max_points precision self) := by
  have h : self.fracture bisect 4 precision result = result := by
    simp [Polygon.fracture]
  refine ⟨h, ?_, ?_, ?_, fun _ => rfl⟩ <;> simp [h]

/-! ## Claims on `V4Item::copy_from` -/

/-- The method `copy_from` assigns `tag` and `text` and nothing else: the arrays, the layer
vectors and the owner slot of the destination are what they were before the call. -/
theorem V4Item.copy_from_fields {F : Type} (copy_string : Option String → Option String)
    (self v4item : V4Item F) :
    (self.copy_from copy_string v4item).tag = v4item.tag ∧
    (self.copy_from copy_string v4item).text = copy_string v4item.text ∧
    (self.copy_from copy_string v4item).arr0 = self.arr0 ∧
    (self.copy_from copy_string v4item).arr1 = self.arr1 ∧
    (self.copy_from copy_string v4item).layer_names = self.layer_names ∧
    (self.copy_from copy_string v4item).layer_numbers = self.layer_numbers ∧
    (self.copy_from copy_string v4item).owner = self.owner :=
  ⟨rfl, rfl, rfl, rfl, rfl, rfl, rfl⟩

/-- C11 fails on the code: for the source item with tag 5, text `"a"`, `arr0 = [1]`,
`arr1 = [2, 3]`, `layer_names = ["m"]` and `layer_numbers = [7]` and a zeroed destination,
`copy_from` gives the destination the tag and the copied text of the source, and leaves
`arr0`, `arr1`, `layer_names` and `layer_numbers` empty, so the destination differs from the
source on these four fields.  The objects returned by the Python `copy` and `__deepcopy__`
methods have the same four fields empty. -/
theorem V4Item.copy_from_omits_arrays (copy_string : Option String → Option String)
    (result : Nat) :
    ((V4Item.zeroed : V4Item ℚ).copy_from copy_string v4item_sample).tag = v4item_sample.tag ∧
    ((V4Item.zeroed : V4Item ℚ).copy_from copy_string v4item_sample).text
      = copy_string (some "a") ∧
    ((V4Item.zeroed : V4Item ℚ).copy_from copy_string v4item_sample).owner = none ∧
    ((V4Item.zeroed : V4Item ℚ).copy_from copy_string v4item_sample).arr0 = [] ∧
    ((V4Item.zeroed : V4Item ℚ).copy_from copy_string v4item_sample).arr1 = [] ∧
    ((V4Item.zeroed : V4Item ℚ).copy_from copy_string v4item_sample).layer_names = [] ∧
    ((V4Item.zeroed : V4Item ℚ).copy_from copy_string v4item_sample).layer_numbers = [] ∧
    ((V4Item.zeroed : V4Item ℚ).copy_from copy_string v4item_sample).arr0
      ≠ v4item_sample.arr0 ∧
    ((V4Item.zeroed : V4Item ℚ).copy_from copy_string v4item_sample).arr1
      ≠ v4item_sample.arr1 ∧
    ((V4Item.zeroed : V4Item ℚ).copy_from copy_string v4item_sample).layer_names
      ≠ v4item_sample.layer_names ∧
    ((V4Item.zeroed : V4Item ℚ).copy_from copy_string v4item_sample).layer_numbers
      ≠ v4item_sample.layer_numbers ∧
    v4item_object_copy copy_string result v4item_sample
      = { tag := 5, text := copy_string (some "a"), arr0 := [], arr1 := [], layer_names := [],
          layer_numbers := [], owner := some result } ∧
    v4item_object_deepcopy copy_string result v4item_sample
      = v4item_object_copy copy_string result v4item_sample := by
  refine ⟨rfl, rfl, rfl, rfl, rfl, rfl, rfl, ?_, ?_, ?_, ?_, rfl, rfl⟩ <;>
    simp [V4Item.copy_from, V4Item.zeroed, v4item_sample]

end gdstk
